import Mathlib

/-!
Shallow embedding of the PlateScope waste ledger and analytics engine
(`src/FoodWasteMonitor/data/waste_database.cpp` and
`src/FoodWasteMonitor/analysis/stats_analyzer.cpp`).

Modelling conventions:
* C++ `float` values are modelled as exact rationals (`ℚ`); every claim
  settled here depends only on the algebraic shape of the computations, not
  on rounding.  The one place where IEEE special values matter (the z-score
  division in `identifyOutliers`) is modelled explicitly with a dedicated
  value type that has NaN and infinity constructors.
* `std::tm` values produced by `std::get_time` are modelled by a structured
  `DateTime`; `std::mktime` is modelled by `toSecs`, a monotone injective
  encoding of calendar date-times into seconds (proleptic Gregorian calendar
  counted from year 1; the choice of epoch is irrelevant to every comparison
  the code performs).
* `std::map<std::string, T>` is modelled as a key-sorted association list;
  `m[k] += v` becomes `mapAdd`/`mapIncr`, which keep the list sorted.
* The mutex in `WasteDatabase` serialises operations; the embedding models
  the resulting sequential semantics directly on an explicit state record.
-/

namespace PlateScope

/-! ### Digit and character helpers -/

def digitChar : Nat → Char
  | 0 => '0'
  | 1 => '1'
  | 2 => '2'
  | 3 => '3'
  | 4 => '4'
  | 5 => '5'
  | 6 => '6'
  | 7 => '7'
  | 8 => '8'
  | _ => '9'

def natDigitsAux : Nat → Nat → List Char → List Char
  | 0, _, acc => acc
  | fuel + 1, n, acc =>
    let acc2 := digitChar (n % 10) :: acc
    if n < 10 then acc2 else natDigitsAux fuel (n / 10) acc2

/-- Decimal digits of a natural number, most significant first. -/
def natDigits (n : Nat) : List Char :=
  natDigitsAux (n + 1) n []

/-- Zero-padded decimal rendering (models `std::setw`/`std::setfill` output). -/
def padDigits (w n : Nat) : List Char :=
  let ds := natDigits n
  List.replicate (w - ds.length) '0' ++ ds

def digitVal (c : Char) : Nat := c.toNat - 48

/-! ### Timestamps

`WasteEntry::timestamp` is a text field parsed throughout the code with
`std::get_time(&tm, "%Y-%m-%d %H:%M:%S")` (and `"%Y-%m-%d"` for bare dates).
The parse is modelled on the fixed-width canonical shape: four year digits,
two digits for each remaining field, the literal separators, range-checked
fields; characters after the matched prefix are ignored, exactly as
`std::get_time` leaves them unread in the stream. -/

structure DateTime where
  year : Nat
  month : Nat
  day : Nat
  hour : Nat
  minute : Nat
  second : Nat
  deriving Repr, DecidableEq

/-- Models `std::get_time(&tm, "%Y-%m-%d %H:%M:%S")` on a fresh zeroed `tm`:
`none` corresponds to the stream's fail state. -/
def parseTimestamp (ts : String) : Option DateTime :=
  match ts.data with
  | y1 :: y2 :: y3 :: y4 :: a1 :: mo1 :: mo2 :: a2 :: d1 :: d2 :: a3 ::
      h1 :: h2 :: a4 :: mi1 :: mi2 :: a5 :: s1 :: s2 :: _ =>
    if y1.isDigit && y2.isDigit && y3.isDigit && y4.isDigit && a1 == '-' &&
       mo1.isDigit && mo2.isDigit && a2 == '-' && d1.isDigit && d2.isDigit && a3 == ' ' &&
       h1.isDigit && h2.isDigit && a4 == ':' && mi1.isDigit && mi2.isDigit && a5 == ':' &&
       s1.isDigit && s2.isDigit then
      let y := ((digitVal y1 * 10 + digitVal y2) * 10 + digitVal y3) * 10 + digitVal y4
      let mo := digitVal mo1 * 10 + digitVal mo2
      let d := digitVal d1 * 10 + digitVal d2
      let h := digitVal h1 * 10 + digitVal h2
      let mi := digitVal mi1 * 10 + digitVal mi2
      let s := digitVal s1 * 10 + digitVal s2
      if 1 ≤ mo && mo ≤ 12 && 1 ≤ d && d ≤ 31 && h ≤ 23 && mi ≤ 59 && s ≤ 60 then
        some ⟨y, mo, d, h, mi, s⟩
      else none
    else none
  | _ => none

/-- Models `std::get_time(&tm, "%Y-%m-%d")` on a fresh zeroed `tm`:
the time-of-day fields keep their zero initialisation. -/
def parseDate (s : String) : Option DateTime :=
  match s.data with
  | y1 :: y2 :: y3 :: y4 :: a1 :: mo1 :: mo2 :: a2 :: d1 :: d2 :: _ =>
    if y1.isDigit && y2.isDigit && y3.isDigit && y4.isDigit && a1 == '-' &&
       mo1.isDigit && mo2.isDigit && a2 == '-' && d1.isDigit && d2.isDigit then
      let y := ((digitVal y1 * 10 + digitVal y2) * 10 + digitVal y3) * 10 + digitVal y4
      let mo := digitVal mo1 * 10 + digitVal mo2
      let d := digitVal d1 * 10 + digitVal d2
      if 1 ≤ mo && mo ≤ 12 && 1 ≤ d && d ≤ 31 then
        some ⟨y, mo, d, 0, 0, 0⟩
      else none
    else none
  | _ => none

/-! ### Calendar arithmetic (model of `std::mktime` / `std::localtime`) -/

def isLeapYear (y : Nat) : Bool :=
  (y % 4 == 0 && y % 100 != 0) || y % 400 == 0

def daysInMonth (y m : Nat) : Nat :=
  if m = 2 then (if isLeapYear y then 29 else 28)
  else if m = 4 ∨ m = 6 ∨ m = 9 ∨ m = 11 then 30
  else 31

def daysBeforeMonth (y : Nat) : Nat → Nat
  | 0 => 0
  | 1 => 0
  | m + 2 => daysBeforeMonth y (m + 1) + daysInMonth y (m + 1)

def leapCount (y : Nat) : Nat := y / 4 - y / 100 + y / 400

def daysFromCivil (y m d : Nat) : Nat :=
  365 * (y - 1) + leapCount (y - 1) + daysBeforeMonth y m + (d - 1)

/-- Models `std::mktime` on an in-range `tm`: seconds of a calendar
date-time, counted from 0001-01-01 00:00:00. -/
def toSecs (dt : DateTime) : Nat :=
  daysFromCivil dt.year dt.month dt.day * 86400 +
    dt.hour * 3600 + dt.minute * 60 + dt.second

def daysInYear (y : Nat) : Nat := if isLeapYear y then 366 else 365

def yearFromDaysAux : Nat → Nat → Nat → Nat × Nat
  | 0, y, d => (y, d)
  | fuel + 1, y, d =>
    if d < daysInYear y then (y, d) else yearFromDaysAux fuel (y + 1) (d - daysInYear y)

def monthFromDaysAux : Nat → Nat → Nat → Nat → Nat × Nat
  | 0, _, m, d => (m, d)
  | fuel + 1, y, m, d =>
    if d < daysInMonth y m then (m, d) else monthFromDaysAux fuel y (m + 1) (d - daysInMonth y m)

/-- Inverse of `daysFromCivil`: year, month, day of a day count. -/
def civilFromDays (n : Nat) : Nat × Nat × Nat :=
  let yd := yearFromDaysAux (n / 365 + 1) 1 n
  let md := monthFromDaysAux 12 yd.1 1 yd.2
  (yd.1, md.1, md.2 + 1)

/-- Models `std::put_time(tm, "%Y-%m-%d")` applied to `localtime(t)`. -/
def dateStringOfSecs (t : Nat) : String :=
  let c := civilFromDays (t / 86400)
  String.mk (padDigits 4 c.1 ++ '-' :: (padDigits 2 c.2.1 ++ '-' :: padDigits 2 c.2.2))

def dayNames : List String :=
  ["Sunday", "Monday", "Tuesday", "Wednesday", "Thursday", "Friday", "Saturday"]

def monthNames : List String :=
  ["January", "February", "March", "April", "May", "June",
   "July", "August", "September", "October", "November", "December"]

/-- Weekday name of a parsed date (models the `%A` rendering of the entry's
timestamp; day 0 of the count, 0001-01-01, was a Monday). -/
def dayName (dt : DateTime) : String :=
  (dayNames.get? ((daysFromCivil dt.year dt.month dt.day + 1) % 7)).getD "Sunday"

/-- Month name of a parsed date (models the `%B` rendering). -/
def monthName (dt : DateTime) : String :=
  (monthNames.get? (dt.month - 1)).getD "January"

/-! ### Meal periods (`WasteDatabase::initializeMealPeriods` and friends) -/

inductive MealPeriod
  | breakfast
  | lunch
  | dinner
  | snack
  | unknown
  deriving Repr, DecidableEq

structure TimeRange where
  startHour : Nat
  startMinute : Nat
  endHour : Nat
  endMinute : Nat
  deriving Repr, DecidableEq

/-- The table installed by `initializeMealPeriods`, in the iteration order of
the `std::map<MealPeriod, TimeRange>` (the enum declaration order). -/
def mealTimeRanges : List (MealPeriod × TimeRange) :=
  [(MealPeriod.breakfast, ⟨6, 0, 10, 30⟩),
   (MealPeriod.lunch, ⟨11, 0, 14, 30⟩),
   (MealPeriod.dinner, ⟨17, 0, 21, 0⟩),
   (MealPeriod.snack, ⟨21, 0, 23, 59⟩)]

def inTimeRange (r : TimeRange) (hour minute : Nat) : Bool :=
  let startMinutes := r.startHour * 60 + r.startMinute
  let endMinutes := r.endHour * 60 + r.endMinute
  let currentMinutes := hour * 60 + minute
  startMinutes ≤ currentMinutes && currentMinutes ≤ endMinutes

/-- `WasteDatabase::determineMealPeriod(int, int)`. -/
def determineMealPeriodHM (hour minute : Nat) : MealPeriod :=
  match mealTimeRanges.find? (fun pr => inTimeRange pr.2 hour minute) with
  | some pr => pr.1
  | none => MealPeriod.snack

/-- `WasteDatabase::determineMealPeriod(const std::string&)`. -/
def determineMealPeriodTs (ts : String) : MealPeriod :=
  match parseTimestamp ts with
  | none => MealPeriod.unknown
  | some dt => determineMealPeriodHM dt.hour dt.minute

/-- `WasteDatabase::getMealPeriodString`. -/
def mealPeriodString : MealPeriod → String
  | MealPeriod.breakfast => "Breakfast"
  | MealPeriod.lunch => "Lunch"
  | MealPeriod.dinner => "Dinner"
  | MealPeriod.snack => "Snack"
  | MealPeriod.unknown => "Unknown"

/-! ### Data model (`WasteEntry`, `WasteStatistics`, database state) -/

structure WasteEntry where
  foodType : String
  weight : ℚ
  timestamp : String
  confidence : ℚ
  mealPeriod : String
  imageFilename : String
  deriving Repr, DecidableEq

structure WasteStatistics where
  totalWeight : ℚ
  totalItems : Nat
  weightByType : List (String × ℚ)
  countByType : List (String × Nat)
  topWastedFoods : List String
  weightByDay : List (String × ℚ)
  weightByMeal : List (String × ℚ)
  weightByMonth : List (String × ℚ)
  dailyTrend : List ℚ
  wasteSavedTotal : ℚ
  wasteSavedPercentage : ℚ
  deriving Repr, DecidableEq

/-- The `WasteStatistics()` default constructor. -/
def emptyStatistics : WasteStatistics :=
  ⟨0, 0, [], [], [], [], [], [], [], 0, 0⟩

/-- The mutable state of a `WasteDatabase` instance (the persisted path and
subscriber list carry no ledger data and are left out). -/
structure DBState where
  entries : List WasteEntry
  statistics : WasteStatistics
  statisticsDirty : Bool
  currentMealPeriod : MealPeriod
  deriving Repr, DecidableEq

/-- `WasteDatabase::addEntry`: unconditionally pushes the entry and marks the
cached statistics dirty, then notifies subscribers (which does not change the
database state). There is no validation and no failure result. -/
def addEntry (s : DBState) (entry : WasteEntry) : DBState :=
  { s with entries := s.entries ++ [entry], statisticsDirty := true }

/-- `Detection::FoodItem` (the bounding box plays no role in the ledger). -/
structure FoodItem where
  className : String
  confidence : ℚ
  estimatedWeight : ℚ
  isWaste : Bool
  timestamp : String
  deriving Repr, DecidableEq

/-- The `WasteEntry` built by `WasteDatabase::addDetection`: the meal period
is `getMealPeriodString()`, i.e. the database's current meal period state,
not a function of the item's timestamp. -/
def detectionEntry (s : DBState) (item : FoodItem) : WasteEntry :=
  { foodType := item.className
    weight := item.estimatedWeight
    timestamp := item.timestamp
    confidence := item.confidence
    mealPeriod := mealPeriodString s.currentMealPeriod
    imageFilename := "" }

/-- `WasteDatabase::addDetection`. -/
def addDetection (s : DBState) (item : FoodItem) : DBState :=
  addEntry s (detectionEntry s item)

/-! ### Retrieval (`getEntries` / `filterEntriesByDate`) -/

/-- Lower bound used by `filterEntriesByDate`: present only when a start date
was supplied and parsed (`hasStartDate`); midnight of that day. -/
def startBound (startDate : String) : Option Nat :=
  if startDate = "" then none
  else
    match parseDate startDate with
    | none => none
    | some d => some (toSecs d)

/-- Upper bound used by `filterEntriesByDate`: present only when an end date
was supplied and parsed (`hasEndDate`); the code then sets the `tm` to
23:59:59 of that day before `mktime`. -/
def endBound (endDate : String) : Option Nat :=
  if endDate = "" then none
  else
    match parseDate endDate with
    | none => none
    | some d => some (toSecs { d with hour := 23, minute := 59, second := 59 })

/-- Per-entry test of the date-range loop: entries whose timestamp fails to
parse are skipped (`continue`); otherwise both present bounds must hold. -/
def entryInDateRange (sb eb : Option Nat) (e : WasteEntry) : Bool :=
  match parseTimestamp e.timestamp with
  | none => false
  | some dt =>
    (match sb with
     | none => true
     | some t => t ≤ toSecs dt) &&
    (match eb with
     | none => true
     | some t => toSecs dt ≤ t)

/-- `WasteDatabase::filterEntriesByDate`. -/
def filterEntriesByDate (entries : List WasteEntry) (startDate endDate : String) :
    List WasteEntry :=
  entries.filter (entryInDateRange (startBound startDate) (endBound endDate))

/-- `WasteDatabase::getEntries`. -/
def getEntries (s : DBState) (foodType startDate endDate : String) : List WasteEntry :=
  let filtered :=
    if foodType = "" then s.entries
    else s.entries.filter (fun e => e.foodType == foodType)
  if startDate = "" ∧ endDate = "" then filtered
  else filterEntriesByDate filtered startDate endDate

/-! ### Sorted association lists (model of `std::map<std::string, T>`) -/

/-- `m[k] += v` on a `std::map<std::string, float>`: inserts at the sorted
position, or adds to the existing value (absent keys value-initialise to 0). -/
def mapAdd (m : List (String × ℚ)) (k : String) (v : ℚ) : List (String × ℚ) :=
  match m with
  | [] => [(k, v)]
  | p :: rest =>
    if k < p.1 then (k, v) :: p :: rest
    else if k = p.1 then (k, p.2 + v) :: rest
    else p :: mapAdd rest k v

/-- `m[k]++` on a `std::map<std::string, int>`. -/
def mapIncr (m : List (String × Nat)) (k : String) : List (String × Nat) :=
  match m with
  | [] => [(k, 1)]
  | p :: rest =>
    if k < p.1 then (k, 1) :: p :: rest
    else if k = p.1 then (k, p.2 + 1) :: rest
    else p :: mapIncr rest k

/-! ### All-time statistics (`WasteDatabase::calculateStatistics`) -/

/-- Accumulator of the single pass over `m_entries`.  The source also fills
`weeklyWeight`/`monthlyWeight` maps, but they are local and never stored in
`m_statistics`, so they are not modelled. -/
structure StatsAcc where
  totalWeight : ℚ
  weightByType : List (String × ℚ)
  countByType : List (String × Nat)
  weightByMeal : List (String × ℚ)
  weightByDay : List (String × ℚ)
  weightByMonth : List (String × ℚ)
  dailyWeight : List (String × ℚ)
  deriving Repr, DecidableEq

def statsAccInit : StatsAcc := ⟨0, [], [], [], [], [], []⟩

/-- `put_time(&tm, "%Y-%m-%d")` on the parsed entry timestamp: the key of the
`dailyWeight` bucket map. -/
def dateKey (dt : DateTime) : String :=
  String.mk (padDigits 4 dt.year ++ '-' :: (padDigits 2 dt.month ++ '-' :: padDigits 2 dt.day))

/-- One iteration of the `calculateStatistics` entry loop: totals and the
category/meal maps always accumulate; the weekday, month and date buckets are
touched only when the timestamp parses (`!ss.fail()`). -/
def statsStep (a : StatsAcc) (e : WasteEntry) : StatsAcc :=
  let a1 := { a with
    totalWeight := a.totalWeight + e.weight
    weightByType := mapAdd a.weightByType e.foodType e.weight
    countByType := mapIncr a.countByType e.foodType
    weightByMeal := mapAdd a.weightByMeal e.mealPeriod e.weight }
  match parseTimestamp e.timestamp with
  | none => a1
  | some dt =>
    { a1 with
      weightByDay := mapAdd a1.weightByDay (dayName dt) e.weight
      weightByMonth := mapAdd a1.weightByMonth (monthName dt) e.weight
      dailyWeight := mapAdd a1.dailyWeight (dateKey dt) e.weight }

def statsFold (entries : List WasteEntry) : StatsAcc :=
  entries.foldl statsStep statsAccInit

/-- Descending insertion by weight.  The source sorts the `(key, weight)`
vector with `std::sort` and a strict `>` comparator; the vector comes from a
key-sorted map, and this stable model keeps key order on weight ties. -/
def insertDescByWeight (p : String × ℚ) : List (String × ℚ) → List (String × ℚ)
  | [] => [p]
  | q :: rest => if p.2 > q.2 then p :: q :: rest else q :: insertDescByWeight p rest

def sortDescByWeight (l : List (String × ℚ)) : List (String × ℚ) :=
  l.foldr insertDescByWeight []

/-- The top-5 ranking computed for `topWastedFoods`. -/
def topWastedOf (weightByType : List (String × ℚ)) : List String :=
  ((sortDescByWeight weightByType).take 5).map (fun p => p.1)

/-- The 30 date labels generated from `now` for the daily trend, oldest
first (the loop runs `i = 29` down to `0`). -/
def lastNDates (now n : Nat) : List String :=
  (List.range n).reverse.map (fun i => dateStringOfSecs (now - 86400 * i))

/-- The week-over-week loop: per entry with a parsable timestamp, weight goes
to the last-7-days sum or else to the prior-7-days sum.  The `time_t`
comparisons `t ≥ now - k` are written additively to stay in `Nat`. -/
def weekWeights (entries : List WasteEntry) (now : Nat) : ℚ × ℚ :=
  entries.foldl
    (fun acc e =>
      match parseTimestamp e.timestamp with
      | none => acc
      | some dt =>
        let t := toSecs dt
        if t + 7 * 86400 ≥ now then (acc.1 + e.weight, acc.2)
        else if t + 14 * 86400 ≥ now then (acc.1, acc.2 + e.weight)
        else acc)
    (0, 0)

/-- `WasteDatabase::calculateStatistics`, with the wall clock passed in as
`now` (seconds in the `toSecs` encoding). -/
def calculateStatistics (entries : List WasteEntry) (now : Nat) : WasteStatistics :=
  if entries = [] then emptyStatistics
  else
    let a := statsFold entries
    let stTrend := (lastNDates now 30).map (fun d => (a.dailyWeight.lookup d).getD 0)
    let ww := weekWeights entries now
    let saved : ℚ × ℚ :=
      if ww.2 > 0 then
        if ww.2 - ww.1 > 0 then (ww.2 - ww.1, (ww.2 - ww.1) / ww.2 * 100)
        else (0, 0)
      else (0, 0)
    { totalWeight := a.totalWeight
      totalItems := entries.length
      weightByType := a.weightByType
      countByType := a.countByType
      topWastedFoods := topWastedOf a.weightByType
      weightByDay := a.weightByDay
      weightByMeal := a.weightByMeal
      weightByMonth := a.weightByMonth
      dailyTrend := stTrend
      wasteSavedTotal := saved.1
      wasteSavedPercentage := saved.2 }

/-! ### `WasteDatabase::getStatistics` -/

inductive TimePeriod
  | day
  | week
  | month
  | year
  | allTime
  deriving Repr, DecidableEq

def periodDays : TimePeriod → Nat
  | TimePeriod.day => 1
  | TimePeriod.week => 7
  | TimePeriod.month => 30
  | TimePeriod.year => 365
  | TimePeriod.allTime => 0

/-- One iteration of the bounded-period loop of `getStatistics`: it fills
only totals and the category/meal maps. -/
def periodStep (a : StatsAcc) (e : WasteEntry) : StatsAcc :=
  { a with
    totalWeight := a.totalWeight + e.weight
    weightByType := mapAdd a.weightByType e.foodType e.weight
    countByType := mapIncr a.countByType e.foodType
    weightByMeal := mapAdd a.weightByMeal e.mealPeriod e.weight }

/-- `WasteDatabase::getStatistics`: recomputes the cached snapshot whenever it
is dirty or a bounded period is requested, clears the dirty flag, then either
returns the cache (all-time) or a freshly aggregated bounded-window snapshot.
Returns the result together with the post-call database state. -/
def getStatistics (s : DBState) (now : Nat) (period : TimePeriod) :
    WasteStatistics × DBState :=
  let s1 :=
    if s.statisticsDirty ∨ period ≠ TimePeriod.allTime then
      { s with statistics := calculateStatistics s.entries now, statisticsDirty := false }
    else s
  if period = TimePeriod.allTime then (s1.statistics, s1)
  else
    let startDateStr := dateStringOfSecs (now - 86400 * periodDays period)
    let periodEntries := getEntries s1 "" startDateStr ""
    let a := periodEntries.foldl periodStep statsAccInit
    ({ emptyStatistics with
        totalItems := periodEntries.length
        totalWeight := a.totalWeight
        weightByType := a.weightByType
        countByType := a.countByType
        weightByMeal := a.weightByMeal
        topWastedFoods := topWastedOf a.weightByType }, s1)

/-! ### Persistence (`saveToFile` / `loadFromFile`)

The file is modelled as its list of lines, each line a list of characters. -/

def fracDigitsAux : Nat → Nat → Nat → List Char
  | 0, _, _ => []
  | fuel + 1, r, den =>
    if r = 0 then []
    else digitChar (r * 10 / den) :: fracDigitsAux fuel (r * 10 % den) den

/-- Models the default `operator<<` formatting of a `float` field for the
values whose decimal expansion is exact within six fractional digits: sign,
integer digits, then the fractional digits with no trailing zeros (a value
needing more precision is truncated here where the stream would round — the
round-trip theorem takes render/re-parse exactness as a hypothesis). -/
def showFloat (q : ℚ) : List Char :=
  let n := q.num.natAbs
  let ip := n / q.den
  let frac := fracDigitsAux 6 (n % q.den) q.den
  (if q < 0 then ['-'] else []) ++ natDigits ip ++
    (if frac = [] then [] else '.' :: frac)

def takeDigitsAux : List Char → List Nat × List Char
  | [] => ([], [])
  | c :: rest =>
    if c.isDigit then
      let r := takeDigitsAux rest
      (digitVal c :: r.1, r.2)
    else ([], c :: rest)

def natFromDigits (ds : List Nat) : Nat :=
  ds.foldl (fun a d => a * 10 + d) 0

/-- Models `std::stof` on a field token: optional sign, decimal digits with
an optional fractional part; trailing unconsumed characters are ignored and
`none` is the thrown `std::invalid_argument` (no digits at all).  Exponent
forms never occur in the tokens this development feeds it. -/
def parseFloat (cs : List Char) : Option ℚ :=
  let sgn : Bool × List Char :=
    match cs with
    | '-' :: rest => (true, rest)
    | '+' :: rest => (false, rest)
    | _ => (false, cs)
  let ds := takeDigitsAux sgn.2
  let fs : List Nat :=
    match ds.2 with
    | '.' :: rest => (takeDigitsAux rest).1
    | _ => []
  if ds.1 = [] ∧ fs = [] then none
  else
    let mag : ℚ := (natFromDigits ds.1 : ℚ) + (natFromDigits fs : ℚ) / ((10 : ℚ) ^ fs.length)
    some (if sgn.1 then -mag else mag)

def splitCommaAux : List Char → List Char → List (List Char)
  | [], acc => [acc.reverse]
  | c :: rest, acc =>
    if c = ',' then acc.reverse :: splitCommaAux rest []
    else splitCommaAux rest (c :: acc)

/-- The token sequence produced by repeated `std::getline(ss, token, ',')` on
one record line: split at commas, except that a line ending in a comma yields
no final empty token (that last `getline` hits end-of-stream and fails). -/
def getlineTokens (cs : List Char) : List (List Char) :=
  let parts := splitCommaAux cs []
  if parts.getLast? = some [] then parts.dropLast else parts

/-- The record line written by `saveToFile` for one entry: the six fields in
fixed order, comma-separated. -/
def entryToLine (e : WasteEntry) : List Char :=
  e.foodType.data ++ ',' :: (showFloat e.weight ++ ',' :: (e.timestamp.data ++
    ',' :: (showFloat e.confidence ++ ',' :: (e.mealPeriod.data ++ ',' :: e.imageFilename.data))))

def headerLine : String := "FoodType,Weight,Timestamp,Confidence,MealPeriod,ImageFilename"

/-- `WasteDatabase::saveToFile`: the header line, then one line per entry in
ledger order. -/
def saveToFile (entries : List WasteEntry) : List (List Char) :=
  headerLine.data :: entries.map entryToLine

/-- The body of the `loadFromFile` record loop for one line: each field is
guarded by `if (std::getline(...))`, and the reads succeed exactly while
tokens remain, so the token count determines how many fields are assigned
(missing tokens leave the default-constructed field); a `std::stof` failure
on the weight or confidence token throws, aborting the whole load
(`none`). -/
def parseEntryLine (line : List Char) : Option WasteEntry :=
  match getlineTokens line with
  | [] => some ⟨"", 0, "", 0, "", ""⟩
  | [t0] => some ⟨String.mk t0, 0, "", 0, "", ""⟩
  | t0 :: t1 :: rest =>
    match parseFloat t1 with
    | none => none
    | some w =>
      match rest with
      | [] => some ⟨String.mk t0, w, "", 0, "", ""⟩
      | [t2] => some ⟨String.mk t0, w, String.mk t2, 0, "", ""⟩
      | t2 :: t3 :: rest2 =>
        match parseFloat t3 with
        | none => none
        | some c =>
          match rest2 with
          | [] => some ⟨String.mk t0, w, String.mk t2, c, "", ""⟩
          | [t4] => some ⟨String.mk t0, w, String.mk t2, c, String.mk t4, ""⟩
          | t4 :: t5 :: _ =>
            some ⟨String.mk t0, w, String.mk t2, c, String.mk t4, String.mk t5⟩

def parseEntryLines : List (List Char) → Option (List WasteEntry)
  | [] => some []
  | l :: rest =>
    match parseEntryLine l with
    | none => none
    | some e =>
      match parseEntryLines rest with
      | none => none
      | some es => some (e :: es)

/-- `WasteDatabase::loadFromFile`: skip the header line, then parse every
record line; a parse exception makes the load report failure. -/
def loadFromFile (lines : List (List Char)) : Option (List WasteEntry) :=
  parseEntryLines (lines.drop 1)

/-! ### Trend analysis (`StatsAnalyzer`) -/

structure TrendData where
  timeLabels : List String
  values : List ℚ
  changePercentage : ℚ
  increasing : Bool
  deriving Repr, DecidableEq

/-- The `TrendData()` default constructor. -/
def emptyTrendData : TrendData := ⟨[], [], 0, false⟩

structure PredictionModel where
  intercept : ℚ
  slope : ℚ
  rSquared : ℚ
  deriving Repr, DecidableEq

/-- `StatsAnalyzer::performLinearRegression` (the three output parameters
gathered into a `PredictionModel`).  The `1e-9` degeneracy guards are kept
verbatim as `1 / 1000000000`. -/
def performLinearRegression (xs ys : List ℚ) : PredictionModel :=
  if xs.length ≠ ys.length ∨ xs.length < 2 then ⟨0, 0, 0⟩
  else
    let n : ℚ := (xs.length : ℚ)
    let meanX := xs.sum / n
    let meanY := ys.sum / n
    let pairs := xs.zip ys
    let sumXY := (pairs.map (fun p => (p.1 - meanX) * (p.2 - meanY))).sum
    let sumXX := (xs.map (fun x => (x - meanX) * (x - meanX))).sum
    let sumYY := (ys.map (fun y => (y - meanY) * (y - meanY))).sum
    if sumXX < 1 / 1000000000 then ⟨meanY, 0, 0⟩
    else
      let slope := sumXY / sumXX
      let intercept := meanY - slope * meanX
      let ssr := (pairs.map (fun p =>
        (p.2 - (intercept + slope * p.1)) * (p.2 - (intercept + slope * p.1)))).sum
      let rSq := if sumYY < 1 / 1000000000 then 0 else 1 - ssr / sumYY
      ⟨intercept, slope, rSq⟩

/-- `StatsAnalyzer::calculateTrendPercentage`.  (The source also runs a
linear regression here and discards all three results; that call has no
observable effect and is omitted.) -/
def calculateTrendPercentage (values : List ℚ) : ℚ :=
  if values.length < 2 then 0
  else
    let startValue := values.headI
    let endValue := (values.getLast?).getD 0
    if startValue = 0 then 0 else (endValue - startValue) / startValue * 100

/-- `entry.timestamp.substr(0, 10)`: the "date part" key used by
`analyzeFoodTypeTrend`, taken with no parse validation. -/
def timestampDatePart (ts : String) : String := String.mk (ts.data.take 10)

/-- The `dailyWeights` map built by `analyzeFoodTypeTrend`: every entry of
the food type contributes, bucketed by the raw first ten characters of its
timestamp. -/
def foodTypeDailyWeights (entries : List WasteEntry) : List (String × ℚ) :=
  entries.foldl (fun m e => mapAdd m (timestampDatePart e.timestamp) e.weight) []

/-- `StatsAnalyzer::analyzeFoodTypeTrend`.  The source sorts the map's pair
vector with `std::sort`; the vector is already key-sorted, so the sort is the
identity here.  (The result is also memoized in `m_foodTypeTrends`; no claim
touches that cache.) -/
def analyzeFoodTypeTrend (s : DBState) (foodType : String) (days : Nat) : TrendData :=
  let entries := getEntries s foodType "" ""
  if entries = [] then emptyTrendData
  else
    let dw := foodTypeDailyWeights entries
    let sortedData := if dw.length > days then dw.drop (dw.length - days) else dw
    let cp := calculateTrendPercentage (sortedData.map (fun p => p.2))
    { timeLabels := sortedData.map (fun p => p.1)
      values := sortedData.map (fun p => p.2)
      changePercentage := cp
      increasing := decide (cp > 0) }

/-- Insert-or-assign on the sorted map model (`m[k] = v`). -/
def mapSet (m : List (String × ℚ)) (k : String) (v : ℚ) : List (String × ℚ) :=
  match m with
  | [] => [(k, v)]
  | p :: rest =>
    if k < p.1 then (k, v) :: p :: rest
    else if k = p.1 then (k, v) :: rest
    else p :: mapSet rest k v

/-- The hour label `"HH:00"`. -/
def hourKey (h : Nat) : String := String.mk (padDigits 2 h ++ [':', '0', '0'])

/-- `WasteDatabase::getWasteTrend`.  Calls `getStatistics(period)` first (the
returned snapshot is unused, but the call refreshes the cache), then builds
either an hourly map for today (day/week) or a zero-initialised daily map
over the lookback window filled only at pre-initialised date keys. -/
def getWasteTrend (s : DBState) (now : Nat) (period : TimePeriod) :
    List (String × ℚ) × DBState :=
  let s1 := (getStatistics s now period).2
  if period = TimePeriod.day ∨ period = TimePeriod.week then
    let init := (List.range 24).foldl (fun m h => mapSet m (hourKey h) 0) []
    let dateStr := dateStringOfSecs now
    let todayEntries := getEntries s1 "" dateStr dateStr
    let tr := todayEntries.foldl
      (fun m e =>
        match parseTimestamp e.timestamp with
        | none => m
        | some dt => mapAdd m (hourKey dt.hour) e.weight) init
    (tr, s1)
  else
    let days : Nat :=
      match period with
      | TimePeriod.month => 30
      | TimePeriod.year => 365
      | _ => 7
    let init := (lastNDates now days).foldl (fun m d => mapSet m d 0) []
    let all := getEntries s1 "" "" ""
    let tr := all.foldl
      (fun m e =>
        match parseTimestamp e.timestamp with
        | none => m
        | some dt =>
          if (m.lookup (dateKey dt)).isSome then mapAdd m (dateKey dt) e.weight else m) init
    (tr, s1)

/-- `StatsAnalyzer::analyzeDailyTrend`: pulls the waste-trend map for the
period covering `days`, sorts it by date (the map is already key-sorted),
keeps the most recent `days` buckets and derives the trend numbers. -/
def analyzeDailyTrend (s : DBState) (now : Nat) (days : Nat) : TrendData × DBState :=
  let p :=
    if days ≤ 7 then TimePeriod.week
    else if days ≤ 30 then TimePeriod.month
    else TimePeriod.year
  let wt := getWasteTrend s now p
  let sortedData := if wt.1.length > days then wt.1.drop (wt.1.length - days) else wt.1
  let cp := calculateTrendPercentage (sortedData.map (fun q => q.2))
  ({ timeLabels := sortedData.map (fun q => q.1)
     values := sortedData.map (fun q => q.2)
     changePercentage := cp
     increasing := decide (cp > 0) }, wt.2)

/-- The mutable state of a `StatsAnalyzer` instance (the insight strings and
the per-food/per-meal trend memo maps play no part in any claim). -/
structure AnalyzerState where
  currentStats : WasteStatistics
  insightsDirty : Bool
  dailyTrend : TrendData
  wastePredictionModel : PredictionModel
  deriving Repr, DecidableEq

/-- `std::iota` x-values `0, 1, ..., n-1`. -/
def iotaQ (n : Nat) : List ℚ := (List.range n).map (fun i => (i : ℚ))

/-- `StatsAnalyzer::updateStats`: refresh the cached snapshot, the daily
trend, and — only when the new trend is non-empty — refit the prediction
model over sequential indices. -/
def updateStats (a : AnalyzerState) (s : DBState) (now : Nat) : AnalyzerState × DBState :=
  let st := getStatistics s now TimePeriod.allTime
  let tr := analyzeDailyTrend st.2 now 30
  let model :=
    if tr.1.values = [] then a.wastePredictionModel
    else performLinearRegression (iotaQ tr.1.values.length) tr.1.values
  ({ currentStats := st.1
     insightsDirty := true
     dailyTrend := tr.1
     wastePredictionModel := model }, tr.2)

/-- `values.size() - 1` at `size_t` width (the source casts the unsigned
difference to `float`; for a non-empty list below `2^64` this is just
`length - 1`). -/
def sizeSub1 (n : Nat) : Nat := (n + (2 ^ 64 - 1)) % 2 ^ 64

/-- `StatsAnalyzer::predictFutureWaste`: negative horizons return 0; a model
with `|R²| < 0.1` triggers a full `updateStats` first; then the fitted line
is evaluated at `lastIndex + daysInFuture` and clamped below at 0. -/
def predictFutureWaste (a : AnalyzerState) (s : DBState) (now : Nat) (daysInFuture : Int) :
    ℚ × AnalyzerState × DBState :=
  if daysInFuture < 0 then (0, a, s)
  else
    let as2 := if |a.wastePredictionModel.rSquared| < 1 / 10 then updateStats a s now else (a, s)
    let a2 := as2.1
    let currentDay : ℚ := (sizeSub1 a2.dailyTrend.values.length : ℚ)
    let futureDay : ℚ := currentDay + (daysInFuture : ℚ)
    let predicted := a2.wastePredictionModel.intercept + a2.wastePredictionModel.slope * futureDay
    (max 0 predicted, a2, as2.2)

/-! ### Outlier detection (`StatsAnalyzer::identifyOutliers`) -/

/-- A float value that may be NaN or +∞ — the two IEEE special cases the
unguarded z-score division can produce. -/
inductive FVal
  | fin (q : ℚ)
  | inf
  | nan
  deriving Repr, DecidableEq

/-- IEEE `>` against a finite threshold: +∞ wins, NaN always compares false. -/
def fvalGt (x : FVal) (t : ℚ) : Bool :=
  match x with
  | FVal.fin q => decide (q > t)
  | FVal.inf => true
  | FVal.nan => false

def outlierValues (data : List (String × ℚ)) : List ℚ := data.map (fun p => p.2)

def outlierMean (data : List (String × ℚ)) : ℚ :=
  (outlierValues data).sum / ((outlierValues data).length : ℚ)

def outlierVarianceSum (data : List (String × ℚ)) : ℚ :=
  ((outlierValues data).map (fun v => (v - outlierMean data) * (v - outlierMean data))).sum

/-- The square of `stdDev = std::sqrt(varianceSum / values.size())`. -/
def outlierStdDevSq (data : List (String × ℚ)) : ℚ :=
  outlierVarianceSum data / ((outlierValues data).length : ℚ)

/-- The source computes `zScore = |value - mean| / stdDev` with no guard and
tests `zScore > threshold`.  √ of a rational is irrational, so the score is
modelled by its square: for the nonnegative operands involved and a
nonnegative threshold, `|v-m|/√s > t ↔ (v-m)²/s > t²` whenever `s > 0`, and
`√s = 0 ↔ s = 0`.  When `stdDev = 0`, IEEE division gives NaN for
`value = mean` (0/0) and +∞ otherwise. -/
def zScoreSq (v mean stdDevSq : ℚ) : FVal :=
  if stdDevSq = 0 then (if v = mean then FVal.nan else FVal.inf)
  else FVal.fin ((v - mean) * (v - mean) / stdDevSq)

/-- `StatsAnalyzer::identifyOutliers` (threshold squared to match the score
model; the default threshold is `1.5`).  The flagged pairs go into a
`std::map`; the input keys are already unique and sorted, so the filtered
sublist is that map's pair sequence. -/
def identifyOutliers (data : List (String × ℚ)) (threshold : ℚ) : List (String × ℚ) :=
  if data = [] then []
  else
    data.filter (fun p =>
      fvalGt (zScoreSq p.2 (outlierMean data) (outlierStdDevSq data)) (threshold * threshold))

/-! ### Concrete inputs used by witnesses and counterexamples -/

/-- A freshly initialised empty database (dirty flag set, as after
`initialize`). -/
def dbEmpty : DBState := ⟨[], emptyStatistics, true, MealPeriod.unknown⟩

/-- An observation with negative weight. -/
def negEntry : WasteEntry :=
  { foodType := "Apple"
    weight := -5
    timestamp := "2024-01-02 12:00:00"
    confidence := 1 / 2
    mealPeriod := "Lunch"
    imageFilename := "" }

/-- A valid observation (nonnegative weight). -/
def posEntry : WasteEntry :=
  { foodType := "Bread"
    weight := 10
    timestamp := "2024-01-02 12:30:00"
    confidence := 4 / 5
    mealPeriod := "Lunch"
    imageFilename := "" }

/-- A database whose current meal period is dinner. -/
def dbDinner : DBState := ⟨[], emptyStatistics, true, MealPeriod.dinner⟩

/-- A detection timestamped in the breakfast range. -/
def breakfastItem : FoodItem :=
  { className := "Toast"
    confidence := 9 / 10
    estimatedWeight := 30
    isWaste := true
    timestamp := "2024-01-01 07:30:00" }

/-- A parsable timestamp at 03:00, inside no configured meal range. -/
def nightTs : String := "2024-01-01 03:00:00"

/-- An unparsable timestamp. -/
def garbageTs : String := "not-a-timestamp"

/-- An entry whose timestamp does not parse. -/
def badTsEntry : WasteEntry :=
  { foodType := "Apple"
    weight := 5
    timestamp := "not-a-timestamp"
    confidence := 1
    mealPeriod := "Lunch"
    imageFilename := "" }

def appleStr : String := "Apple"

/-- A database holding only the unparsable-timestamp entry. -/
def dbBadTs : DBState := ⟨[badTsEntry], emptyStatistics, true, MealPeriod.unknown⟩

/-- A keyed distribution in which every value equals the mean. -/
def flatOutlierData : List (String × ℚ) := [("Friday", 5), ("Monday", 5)]

/-- An entry whose food type contains the field delimiter. -/
def commaEntry : WasteEntry :=
  { foodType := "Mac, and Cheese"
    weight := 1
    timestamp := "2024-01-02 12:00:00"
    confidence := 1
    mealPeriod := "Lunch"
    imageFilename := "" }

/-- `25/2`, given in lowest terms so that its rendering is computable. -/
def ratTwentyFiveHalves : ℚ := ⟨25, 2, by norm_num, by norm_num⟩

/-- `1/2`, given in lowest terms so that its rendering is computable. -/
def ratHalf : ℚ := ⟨1, 2, by norm_num, by norm_num⟩

/-- A delimiter-free entry whose numeric fields render exactly. -/
def niceEntry : WasteEntry :=
  { foodType := "Rice"
    weight := ratTwentyFiveHalves
    timestamp := "2024-01-02 12:00:00"
    confidence := ratHalf
    mealPeriod := "Lunch"
    imageFilename := "plate.jpg" }

/-- The regression model fitted to the series `[100, 50, 0]`. -/
def c8Model : PredictionModel := performLinearRegression (iotaQ 3) [100, 50, 0]

/-- An analyzer state holding that fitted model and its series. -/
def c8Analyzer : AnalyzerState :=
  { currentStats := emptyStatistics
    insightsDirty := false
    dailyTrend := { timeLabels := [], values := [100, 50, 0], changePercentage := 0, increasing := false }
    wastePredictionModel := c8Model }

/-- An entry timestamped exactly at an end-of-day boundary. -/
def boundaryEntry : WasteEntry :=
  { foodType := "Soup"
    weight := 7
    timestamp := "2024-03-05 23:59:59"
    confidence := 1
    mealPeriod := "Dinner"
    imageFilename := "" }

def c9start : String := "2024-03-01"

def c9end : String := "2024-03-05"

/-! ## Theorems -/

/-- C1 counterexample: the claim says an observation with negative weight is
rejected and leaves the ledger unchanged; in fact `addEntry` appends the
weight `-5` entry and mutates the state. -/
theorem c1_counterexample :
    negEntry.weight < 0 ∧
    (addEntry dbEmpty negEntry).entries = [negEntry] ∧
    (addEntry dbEmpty negEntry).entries ≠ dbEmpty.entries := by
  refine ⟨by decide, rfl, by decide⟩

/-- C1 (amended): `addEntry` performs no weight validation and has no failure
result: every observation — negative weight included — is appended as-is, the
dirty flag is set, and the rest of the state is untouched. -/
theorem c1_append_unvalidated (s : DBState) (e : WasteEntry) :
    (addEntry s e).entries = s.entries ++ [e] ∧
    (addEntry s e).statisticsDirty = true ∧
    (addEntry s e).statistics = s.statistics ∧
    (addEntry s e).currentMealPeriod = s.currentMealPeriod ∧
    (addEntry s e).entries.length = s.entries.length + 1 := by
  refine ⟨rfl, rfl, rfl, rfl, ?_⟩
  simp [addEntry]

/-- C2 counterexample: an item timestamped 07:30 (breakfast range) appended
while the database's current meal period is dinner is stored with meal period
"Dinner", not the period derived from its own timestamp. -/
theorem c2_counterexample :
    determineMealPeriodTs breakfastItem.timestamp = MealPeriod.breakfast ∧
    (detectionEntry dbDinner breakfastItem).mealPeriod ≠
      mealPeriodString (determineMealPeriodTs breakfastItem.timestamp) ∧
    (addDetection dbDinner breakfastItem).entries.map (fun e => e.mealPeriod) =
      [mealPeriodString MealPeriod.dinner] := by
  refine ⟨by decide, by decide, by decide⟩

/-- C2 (amended): the append path stores the database's current meal period
(state set from the wall clock, never from the observation): the appended
entry's meal period is `mealPeriodString s.currentMealPeriod` regardless of
the item's timestamp.  The timestamp-based derivation exists but is not
invoked by append; on its own it maps a parsable time covered by no
configured range to snack, and an unparsable timestamp to unknown. -/
theorem c2_meal_period_from_state (s : DBState) (item : FoodItem) (ts : String)
    (dt : DateTime)
    (hp : parseTimestamp ts = some dt)
    (hnr : ∀ pr ∈ mealTimeRanges, inTimeRange pr.2 dt.hour dt.minute = false) :
    (addDetection s item).entries = s.entries ++ [detectionEntry s item] ∧
    (detectionEntry s item).mealPeriod = mealPeriodString s.currentMealPeriod ∧
    determineMealPeriodTs ts = MealPeriod.snack ∧
    (∀ u, parseTimestamp u = none → determineMealPeriodTs u = MealPeriod.unknown) := by
  refine ⟨rfl, rfl, ?_, ?_⟩
  · have hfind : mealTimeRanges.find? (fun pr => inTimeRange pr.2 dt.hour dt.minute) = none := by
      rw [List.find?_eq_none]
      intro pr hpr
      simp [hnr pr hpr]
    simp [determineMealPeriodTs, determineMealPeriodHM, hp, hfind]
  · intro u hu
    simp [determineMealPeriodTs, hu]

/-- C2 witness: the amended theorem at the dinner-state database, the
07:30 item, and the 03:00 timestamp. -/
theorem c2_meal_period_witness :
    (addDetection dbDinner breakfastItem).entries =
      dbDinner.entries ++ [detectionEntry dbDinner breakfastItem] ∧
    (detectionEntry dbDinner breakfastItem).mealPeriod =
      mealPeriodString dbDinner.currentMealPeriod ∧
    determineMealPeriodTs nightTs = MealPeriod.snack ∧
    (∀ u, parseTimestamp u = none → determineMealPeriodTs u = MealPeriod.unknown) :=
  c2_meal_period_from_state dbDinner breakfastItem nightTs ⟨2024, 1, 1, 3, 0, 0⟩
    (by decide) (by decide)

/-- A zero sum of squared deviations forces every value onto the mean. -/
theorem sum_sq_dev_eq_zero {l : List ℚ} {m : ℚ}
    (h : (l.map (fun v => (v - m) * (v - m))).sum = 0) :
    ∀ v ∈ l, v = m := by
  induction l with
  | nil => intro v hv; cases hv
  | cons a t ih =>
    intro v hv
    simp only [List.map_cons, List.sum_cons] at h
    have h1 : 0 ≤ (a - m) * (a - m) := mul_self_nonneg _
    have h2 : 0 ≤ (t.map (fun v => (v - m) * (v - m))).sum := by
      apply List.sum_nonneg
      intro x hx
      simp only [List.mem_map] at hx
      obtain ⟨w, _, hw⟩ := hx
      exact hw ▸ mul_self_nonneg _
    have ha : (a - m) * (a - m) = 0 := by linarith
    have ht : (t.map (fun v => (v - m) * (v - m))).sum = 0 := by linarith
    rcases List.mem_cons.mp hv with h3 | h3
    · have := mul_self_eq_zero.mp ha
      subst h3
      linarith
    · exact ih ht v h3

theorem flatOutlier_mean : outlierMean flatOutlierData = 5 := by
  norm_num [outlierMean, outlierValues, flatOutlierData]

theorem flatOutlier_sdsq : outlierStdDevSq flatOutlierData = 0 := by
  norm_num [outlierStdDevSq, outlierVarianceSum, outlierMean, outlierValues, flatOutlierData]

/-- C5 counterexample: on a distribution in which every value equals the
mean, the unguarded z-score division computes NaN (0/0) — the claim says no
NaN z-score is produced.  No key is flagged, since NaN comparisons are
false. -/
theorem c5_counterexample :
    zScoreSq 5 (outlierMean flatOutlierData) (outlierStdDevSq flatOutlierData) = FVal.nan ∧
    identifyOutliers flatOutlierData (3 / 2) = [] := by
  constructor
  · rw [flatOutlier_mean, flatOutlier_sdsq]
    simp [zScoreSq]
  · unfold identifyOutliers
    rw [if_neg (by simp [flatOutlierData]), List.filter_eq_nil_iff]
    intro p hp
    simp only [flatOutlierData] at hp
    have hp2 : p.2 = 5 := by
      rcases List.mem_cons.mp hp with h | h
      · rw [h]
      · rcases List.mem_cons.mp h with h2 | h2
        · rw [h2]
        · cases h2
    rw [hp2, flatOutlier_mean, flatOutlier_sdsq]
    simp [zScoreSq, fvalGt]

/-- C5 (amended): `identifyOutliers` does not guard its division: when the
population standard deviation is zero, every z-score it computes is the NaN
`0/0` rather than 0; because IEEE NaN comparisons are false, the outcome is
nevertheless that no key is flagged. -/
theorem c5_zero_stddev_nan (data : List (String × ℚ)) (threshold : ℚ)
    (hsd : outlierStdDevSq data = 0) :
    identifyOutliers data threshold = [] ∧
    ∀ p ∈ data, zScoreSq p.2 (outlierMean data) (outlierStdDevSq data) = FVal.nan := by
  by_cases hdata : data = []
  · subst hdata
    exact ⟨by simp [identifyOutliers], by intro p hp; cases hp⟩
  · have hall : ∀ p ∈ data, p.2 = outlierMean data := by
      have hn : ((outlierValues data).length : ℚ) ≠ 0 := by
        have hlen : (outlierValues data).length = data.length := by
          simp [outlierValues]
        rw [hlen]
        exact Nat.cast_ne_zero.mpr (fun h => hdata (List.length_eq_zero.mp h))
      have hvar : outlierVarianceSum data = 0 := by
        rcases div_eq_zero_iff.mp hsd with h | h
        · exact h
        · exact absurd h hn
      intro p hp
      exact sum_sq_dev_eq_zero hvar p.2 (List.mem_map_of_mem (fun q => q.2) hp)
    have hnan : ∀ p ∈ data,
        zScoreSq p.2 (outlierMean data) (outlierStdDevSq data) = FVal.nan := by
      intro p hp
      simp [zScoreSq, hsd, hall p hp]
    refine ⟨?_, hnan⟩
    unfold identifyOutliers
    rw [if_neg hdata, List.filter_eq_nil_iff]
    intro p hp
    simp [hnan p hp, fvalGt]

/-- C5 witness: the amended theorem at the flat two-key distribution with the
default threshold. -/
theorem c5_zero_stddev_witness :
    identifyOutliers flatOutlierData (3 / 2) = [] ∧
    ∀ p ∈ flatOutlierData,
      zScoreSq p.2 (outlierMean flatOutlierData) (outlierStdDevSq flatOutlierData) =
        FVal.nan :=
  c5_zero_stddev_nan flatOutlierData (3 / 2) flatOutlier_sdsq

/-- C7: the reported change percentage is the endpoint delta
`(last - first) / first * 100`, is 0 whenever the first value is 0, is 0 for
series shorter than two values, and the increasing flag of a food-type trend
is exactly "change percentage > 0". -/
theorem c7_trend_percentage (vs : List ℚ) (f l : ℚ)
    (hf : vs.headI = f) (hl : (vs.getLast?).getD 0 = l) :
    (vs.length < 2 → calculateTrendPercentage vs = 0) ∧
    (2 ≤ vs.length →
      calculateTrendPercentage vs = if f = 0 then 0 else (l - f) / f * 100) ∧
    (∀ s ft days, (analyzeFoodTypeTrend s ft days).increasing =
      decide ((analyzeFoodTypeTrend s ft days).changePercentage > 0)) := by
  refine ⟨?_, ?_, ?_⟩
  · intro h
    unfold calculateTrendPercentage
    rw [if_pos h]
  · intro h
    unfold calculateTrendPercentage
    rw [if_neg (by omega)]
    rw [hf, hl]
  · intro s ft days
    by_cases h : getEntries s ft "" "" = []
    · simp [analyzeFoodTypeTrend, h, emptyTrendData]
    · simp [analyzeFoodTypeTrend, h]

/-- C7 witness: the series `[0, 5, 8]` — first value 0, so the change
percentage is 0 despite later growth. -/
theorem c7_trend_witness :
    (([(0 : ℚ), 5, 8]).length < 2 → calculateTrendPercentage [(0 : ℚ), 5, 8] = 0) ∧
    (2 ≤ ([(0 : ℚ), 5, 8]).length →
      calculateTrendPercentage [(0 : ℚ), 5, 8] =
        if (0 : ℚ) = 0 then 0 else ((8 : ℚ) - 0) / 0 * 100) ∧
    (∀ s ft days, (analyzeFoodTypeTrend s ft days).increasing =
      decide ((analyzeFoodTypeTrend s ft days).changePercentage > 0)) :=
  c7_trend_percentage [0, 5, 8] 0 8 (by decide) (by decide)

/-- `size() - 1` at `size_t` width is plain subtraction on the sizes a vector
can actually have. -/
theorem sizeSub1_eq {n : Nat} (h1 : 1 ≤ n) (h2 : n < 2 ^ 64) :
    sizeSub1 n = n - 1 := by
  unfold sizeSub1
  have : n + (2 ^ 64 - 1) = (n - 1) + 1 * 2 ^ 64 := by omega
  rw [this, Nat.add_mul_mod_self_right]
  omega

/-- C8: with a fitted (non-stale) model and a non-negative horizon, the
forecast is `intercept + slope * (lastIndex + daysAhead)` clamped below at
zero, hence never negative. -/
theorem c8_forecast_clamped (a : AnalyzerState) (s : DBState) (now : Nat) (d : Int)
    (hd : 0 ≤ d)
    (hr : 1 / 10 ≤ |a.wastePredictionModel.rSquared|)
    (hne : 1 ≤ a.dailyTrend.values.length)
    (hlen : a.dailyTrend.values.length < 2 ^ 64) :
    (predictFutureWaste a s now d).1 =
      max 0 (a.wastePredictionModel.intercept +
        a.wastePredictionModel.slope *
          (((a.dailyTrend.values.length : ℚ) - 1) + (d : ℚ))) ∧
    0 ≤ (predictFutureWaste a s now d).1 := by
  have hcast : ((sizeSub1 a.dailyTrend.values.length : Nat) : ℚ) =
      (a.dailyTrend.values.length : ℚ) - 1 := by
    rw [sizeSub1_eq hne hlen]
    push_cast [Nat.cast_sub hne]
    ring
  have h1 : (predictFutureWaste a s now d).1 =
      max 0 (a.wastePredictionModel.intercept +
        a.wastePredictionModel.slope *
          (((a.dailyTrend.values.length : ℚ) - 1) + (d : ℚ))) := by
    unfold predictFutureWaste
    rw [if_neg (not_lt.mpr hd), if_neg (not_lt.mpr hr)]
    simp only [hcast]
  exact ⟨h1, h1 ▸ le_max_left 0 _⟩

/-- Evaluating the regression fit of `[100, 50, 0]` over indices `0, 1, 2`:
a perfect line of slope `-50` through `100`. -/
theorem c8Model_eval : c8Model = ⟨100, -50, 1⟩ := by
  unfold c8Model performLinearRegression iotaQ
  norm_num [List.range_succ]

/-- C8 witness: fitting `[100, 50, 0]` and forecasting 10 days ahead clamps
the raw value `-500` to `0`. -/
theorem c8_forecast_witness :
    ((predictFutureWaste c8Analyzer dbEmpty 0 10).1 =
      max 0 (c8Analyzer.wastePredictionModel.intercept +
        c8Analyzer.wastePredictionModel.slope *
          (((c8Analyzer.dailyTrend.values.length : ℚ) - 1) + ((10 : Int) : ℚ))) ∧
      0 ≤ (predictFutureWaste c8Analyzer dbEmpty 0 10).1) ∧
    (predictFutureWaste c8Analyzer dbEmpty 0 10).1 = 0 := by
  have hmdl : c8Analyzer.wastePredictionModel = c8Model := rfl
  have hr : 1 / 10 ≤ |c8Analyzer.wastePredictionModel.rSquared| := by
    rw [hmdl, c8Model_eval]
    norm_num
  have happ := c8_forecast_clamped c8Analyzer dbEmpty 0 10 (by norm_num) hr
    (by decide) (by decide)
  refine ⟨happ, ?_⟩
  rw [happ.1, hmdl, c8Model_eval]
  norm_num [c8Analyzer]

/-- Shape of an all-time statistics request: recompute and clear the flag
when dirty, otherwise hand back the cache untouched. -/
theorem getStatistics_allTime (s : DBState) (now : Nat) :
    getStatistics s now TimePeriod.allTime =
      (if s.statisticsDirty then
        (calculateStatistics s.entries now,
         { s with statistics := calculateStatistics s.entries now, statisticsDirty := false })
       else (s.statistics, s)) := by
  unfold getStatistics
  by_cases h : s.statisticsDirty <;> simp [h]

theorem statsStep_totalWeight (a : StatsAcc) (e : WasteEntry) :
    (statsStep a e).totalWeight = a.totalWeight + e.weight := by
  cases h : parseTimestamp e.timestamp <;> simp [statsStep, h]

theorem statsFold_append_last (es : List WasteEntry) (e : WasteEntry) :
    statsFold (es ++ [e]) = statsStep (statsFold es) e := by
  unfold statsFold
  rw [List.foldl_append]
  rfl

theorem calculateStatistics_totalWeight (es : List WasteEntry) (n : Nat) :
    (calculateStatistics es n).totalWeight = (statsFold es).totalWeight := by
  unfold calculateStatistics
  by_cases h : es = []
  · subst h
    simp [emptyStatistics, statsFold, statsAccInit]
  · simp [h]

theorem calculateStatistics_totalItems (es : List WasteEntry) (n : Nat) :
    (calculateStatistics es n).totalItems = es.length := by
  unfold calculateStatistics
  by_cases h : es = []
  · subst h
    simp [emptyStatistics]
  · simp [h]

/-- C10: a bounded-period statistics request recomputes the cached all-time
snapshot from the current entries and clears the dirty flag as a side effect;
an immediately following all-time request then returns that refreshed cache
with no state change; and no statistics request ever changes the entry
sequence. -/
theorem c10_period_refreshes_cache (s : DBState) (now now2 : Nat) (period : TimePeriod)
    (hp : period ≠ TimePeriod.allTime) :
    (getStatistics s now period).2.entries = s.entries ∧
    (getStatistics s now period).2.statisticsDirty = false ∧
    (getStatistics s now period).2.statistics = calculateStatistics s.entries now ∧
    getStatistics (getStatistics s now period).2 now2 TimePeriod.allTime =
      ((getStatistics s now period).2.statistics, (getStatistics s now period).2) ∧
    (∀ p2 n, (getStatistics s n p2).2.entries = s.entries) := by
  have hsnd : (getStatistics s now period).2 =
      { s with statistics := calculateStatistics s.entries now, statisticsDirty := false } := by
    unfold getStatistics
    simp [hp]
  refine ⟨by rw [hsnd], by rw [hsnd], by rw [hsnd], ?_, ?_⟩
  · rw [getStatistics_allTime, hsnd]
    simp
  · intro p2 n
    by_cases h2 : p2 = TimePeriod.allTime
    · subst h2
      rw [getStatistics_allTime]
      by_cases h3 : s.statisticsDirty <;> simp [h3]
    · unfold getStatistics
      simp [h2]

/-- C10 witness: the theorem at the empty dirty database and the day
period. -/
theorem c10_period_witness :
    (getStatistics dbEmpty 0 TimePeriod.day).2.entries = dbEmpty.entries ∧
    (getStatistics dbEmpty 0 TimePeriod.day).2.statisticsDirty = false ∧
    (getStatistics dbEmpty 0 TimePeriod.day).2.statistics =
      calculateStatistics dbEmpty.entries 0 ∧
    getStatistics (getStatistics dbEmpty 0 TimePeriod.day).2 1 TimePeriod.allTime =
      ((getStatistics dbEmpty 0 TimePeriod.day).2.statistics,
       (getStatistics dbEmpty 0 TimePeriod.day).2) ∧
    (∀ p2 n, (getStatistics dbEmpty n p2).2.entries = dbEmpty.entries) :=
  c10_period_refreshes_cache dbEmpty 0 1 TimePeriod.day (by decide)

/-- C3: with a coherent cache, requesting the all-time snapshot twice with no
intervening append returns the identical snapshot and state the second time
(the cache is reused), and appending one valid observation — which sets the
dirty flag — changes the next snapshot's total weight by exactly that
observation's weight and its item count by exactly one. -/
theorem c3_cache_idempotent_append_delta (s : DBState) (now1 now2 now3 : Nat)
    (e : WasteEntry)
    (hcoh : s.statisticsDirty = false → ∃ n, s.statistics = calculateStatistics s.entries n)
    (_hw : 0 ≤ e.weight) :
    (getStatistics (getStatistics s now1 TimePeriod.allTime).2 now2 TimePeriod.allTime =
      ((getStatistics s now1 TimePeriod.allTime).1,
       (getStatistics s now1 TimePeriod.allTime).2)) ∧
    (addEntry (getStatistics s now1 TimePeriod.allTime).2 e).statisticsDirty = true ∧
    ((getStatistics (addEntry (getStatistics s now1 TimePeriod.allTime).2 e) now3
        TimePeriod.allTime).1.totalWeight =
      (getStatistics s now1 TimePeriod.allTime).1.totalWeight + e.weight) ∧
    ((getStatistics (addEntry (getStatistics s now1 TimePeriod.allTime).2 e) now3
        TimePeriod.allTime).1.totalItems =
      (getStatistics s now1 TimePeriod.allTime).1.totalItems + 1) := by
  have hkey : ((getStatistics s now1 TimePeriod.allTime).1.totalWeight =
        (statsFold s.entries).totalWeight ∧
      (getStatistics s now1 TimePeriod.allTime).1.totalItems = s.entries.length) ∧
      (getStatistics s now1 TimePeriod.allTime).2.statisticsDirty = false ∧
      (getStatistics s now1 TimePeriod.allTime).2.entries = s.entries ∧
      (getStatistics s now1 TimePeriod.allTime).1 =
        (getStatistics s now1 TimePeriod.allTime).2.statistics := by
    rw [getStatistics_allTime]
    by_cases h : s.statisticsDirty
    · simp [h, calculateStatistics_totalWeight, calculateStatistics_totalItems]
    · obtain ⟨n, hn⟩ := hcoh (by simpa using h)
      simp [h, hn, calculateStatistics_totalWeight, calculateStatistics_totalItems]
  obtain ⟨⟨htw, hti⟩, hdirty1, hent1, hfst⟩ := hkey
  have hsecond : getStatistics (addEntry (getStatistics s now1 TimePeriod.allTime).2 e) now3
      TimePeriod.allTime =
      (calculateStatistics ((getStatistics s now1 TimePeriod.allTime).2.entries ++ [e]) now3,
       { addEntry (getStatistics s now1 TimePeriod.allTime).2 e with
          statistics :=
            calculateStatistics ((getStatistics s now1 TimePeriod.allTime).2.entries ++ [e]) now3,
          statisticsDirty := false }) := by
    rw [getStatistics_allTime]
    simp [addEntry]
  refine ⟨?_, rfl, ?_, ?_⟩
  · rw [getStatistics_allTime]
    simp [hdirty1, hfst]
  · rw [hsecond]
    simp only [hent1]
    rw [calculateStatistics_totalWeight, statsFold_append_last, statsStep_totalWeight, htw]
  · rw [hsecond]
    simp only [hent1]
    rw [calculateStatistics_totalItems, hti]
    simp

/-- C3 witness: the theorem at the empty dirty database with a valid
observation of weight 10. -/
theorem c3_cache_witness :
    (getStatistics (getStatistics dbEmpty 0 TimePeriod.allTime).2 1 TimePeriod.allTime =
      ((getStatistics dbEmpty 0 TimePeriod.allTime).1,
       (getStatistics dbEmpty 0 TimePeriod.allTime).2)) ∧
    (addEntry (getStatistics dbEmpty 0 TimePeriod.allTime).2 posEntry).statisticsDirty = true ∧
    ((getStatistics (addEntry (getStatistics dbEmpty 0 TimePeriod.allTime).2 posEntry) 2
        TimePeriod.allTime).1.totalWeight =
      (getStatistics dbEmpty 0 TimePeriod.allTime).1.totalWeight + posEntry.weight) ∧
    ((getStatistics (addEntry (getStatistics dbEmpty 0 TimePeriod.allTime).2 posEntry) 2
        TimePeriod.allTime).1.totalItems =
      (getStatistics dbEmpty 0 TimePeriod.allTime).1.totalItems + 1) :=
  c3_cache_idempotent_append_delta dbEmpty 0 1 2 posEntry
    (fun h => absurd h (by decide)) (by decide)

/-- C9: the date-range filter is inclusive through 23:59:59 of the end
date's day: every retained entry whose parsable timestamp is at or before
that instant — and at or after any given start bound — is returned, in
particular an entry timestamped exactly at the boundary. -/
theorem c9_end_date_inclusive (entries : List WasteEntry) (startDate endDate : String)
    (e : WasteEntry) (dt d : DateTime)
    (he : e ∈ entries)
    (hp : parseTimestamp e.timestamp = some dt)
    (hd : parseDate endDate = some d)
    (hle : toSecs dt ≤ toSecs { d with hour := 23, minute := 59, second := 59 })
    (hs : ∀ t, startBound startDate = some t → t ≤ toSecs dt) :
    e ∈ filterEntriesByDate entries startDate endDate := by
  unfold filterEntriesByDate
  refine List.mem_filter.mpr ⟨he, ?_⟩
  have hne : endDate ≠ "" := by
    intro h
    rw [h] at hd
    have hnone : parseDate "" = none := by decide
    rw [hnone] at hd
    exact Option.noConfusion hd
  have heb : endBound endDate =
      some (toSecs { d with hour := 23, minute := 59, second := 59 }) := by
    unfold endBound
    rw [if_neg hne, hd]
  unfold entryInDateRange
  rw [hp, heb]
  cases hsb : startBound startDate with
  | none => simp [hle]
  | some t => simp [hle, hs t hsb]

/-- C9 witness: an entry timestamped 2024-03-05 23:59:59 is returned by a
query whose end date is 2024-03-05 (with start date 2024-03-01). -/
theorem c9_end_date_witness :
    boundaryEntry ∈ filterEntriesByDate [boundaryEntry] c9start c9end :=
  c9_end_date_inclusive [boundaryEntry] c9start c9end boundaryEntry
    ⟨2024, 3, 5, 23, 59, 59⟩ ⟨2024, 3, 5, 0, 0, 0⟩
    (List.mem_singleton.mpr rfl) (by decide) (by decide) (by decide)
    (by
      intro t ht
      have h2 : startBound c9start = some (toSecs ⟨2024, 3, 1, 0, 0, 0⟩) := by decide
      rw [h2] at ht
      cases ht
      decide)

/-- C4 counterexample: an entry with an unparsable timestamp nevertheless
contributes to the per-food-type daily trend series — `analyzeFoodTypeTrend`
buckets by the raw first ten characters of the timestamp with no parse
check, so the claim's "contributes to no date-bucketed view anywhere in the
system" is false. -/
theorem c4_counterexample :
    parseTimestamp badTsEntry.timestamp = none ∧
    (analyzeFoodTypeTrend dbBadTs appleStr 30).values = [badTsEntry.weight] ∧
    (analyzeFoodTypeTrend dbBadTs appleStr 30).timeLabels =
      [timestampDatePart badTsEntry.timestamp] := by
  refine ⟨by decide, by decide, by decide⟩

theorem statsStep_noparse (a : StatsAcc) (e : WasteEntry)
    (hp : parseTimestamp e.timestamp = none) :
    statsStep a e =
      { a with
        totalWeight := a.totalWeight + e.weight
        weightByType := mapAdd a.weightByType e.foodType e.weight
        countByType := mapIncr a.countByType e.foodType
        weightByMeal := mapAdd a.weightByMeal e.mealPeriod e.weight } := by
  simp [statsStep, hp]

/-- C4 (amended): an entry whose timestamp does not parse is counted in the
snapshot's total weight, item count, and per-category and per-meal sums, and
contributes to none of the weekday, month, date-bucket or daily-trend data of
`calculateStatistics`; but it does contribute to the per-food-type daily
trend map, which buckets every matching entry by the raw first ten characters
of its timestamp. -/
theorem c4_unparsable_counted_in_totals_only (es : List WasteEntry) (e : WasteEntry)
    (now : Nat) (hp : parseTimestamp e.timestamp = none) :
    (calculateStatistics (es ++ [e]) now).totalWeight =
      (statsFold es).totalWeight + e.weight ∧
    (calculateStatistics (es ++ [e]) now).totalItems = es.length + 1 ∧
    (calculateStatistics (es ++ [e]) now).weightByType =
      mapAdd (statsFold es).weightByType e.foodType e.weight ∧
    (calculateStatistics (es ++ [e]) now).countByType =
      mapIncr (statsFold es).countByType e.foodType ∧
    (calculateStatistics (es ++ [e]) now).weightByMeal =
      mapAdd (statsFold es).weightByMeal e.mealPeriod e.weight ∧
    (calculateStatistics (es ++ [e]) now).weightByDay = (statsFold es).weightByDay ∧
    (calculateStatistics (es ++ [e]) now).weightByMonth = (statsFold es).weightByMonth ∧
    (calculateStatistics (es ++ [e]) now).dailyTrend =
      (lastNDates now 30).map (fun dd => (((statsFold es).dailyWeight).lookup dd).getD 0) ∧
    foodTypeDailyWeights (es ++ [e]) =
      mapAdd (foodTypeDailyWeights es) (timestampDatePart e.timestamp) e.weight := by
  have hfdw : foodTypeDailyWeights (es ++ [e]) =
      mapAdd (foodTypeDailyWeights es) (timestampDatePart e.timestamp) e.weight := by
    unfold foodTypeDailyWeights
    rw [List.foldl_append]
    rfl
  have hfold : statsFold (es ++ [e]) =
      { statsFold es with
        totalWeight := (statsFold es).totalWeight + e.weight
        weightByType := mapAdd (statsFold es).weightByType e.foodType e.weight
        countByType := mapIncr (statsFold es).countByType e.foodType
        weightByMeal := mapAdd (statsFold es).weightByMeal e.mealPeriod e.weight } :=
    (statsFold_append_last es e).trans (statsStep_noparse _ e hp)
  have hne : ¬(es ++ [e] = []) := by simp
  refine ⟨?_, ?_, ?_, ?_, ?_, ?_, ?_, ?_, hfdw⟩ <;>
    (unfold calculateStatistics
     rw [if_neg hne, hfold]
     try simp)

/-- C4 witness: the amended theorem at the singleton ledger holding the
unparsable-timestamp entry. -/
theorem c4_unparsable_witness :
    (calculateStatistics ([] ++ [badTsEntry]) 0).totalWeight =
      (statsFold []).totalWeight + badTsEntry.weight ∧
    (calculateStatistics ([] ++ [badTsEntry]) 0).totalItems =
      List.length ([] : List WasteEntry) + 1 ∧
    (calculateStatistics ([] ++ [badTsEntry]) 0).weightByType =
      mapAdd (statsFold []).weightByType badTsEntry.foodType badTsEntry.weight ∧
    (calculateStatistics ([] ++ [badTsEntry]) 0).countByType =
      mapIncr (statsFold []).countByType badTsEntry.foodType ∧
    (calculateStatistics ([] ++ [badTsEntry]) 0).weightByMeal =
      mapAdd (statsFold []).weightByMeal badTsEntry.mealPeriod badTsEntry.weight ∧
    (calculateStatistics ([] ++ [badTsEntry]) 0).weightByDay = (statsFold []).weightByDay ∧
    (calculateStatistics ([] ++ [badTsEntry]) 0).weightByMonth = (statsFold []).weightByMonth ∧
    (calculateStatistics ([] ++ [badTsEntry]) 0).dailyTrend =
      (lastNDates 0 30).map (fun dd => (((statsFold []).dailyWeight).lookup dd).getD 0) ∧
    foodTypeDailyWeights ([] ++ [badTsEntry]) =
      mapAdd (foodTypeDailyWeights []) (timestampDatePart badTsEntry.timestamp)
        badTsEntry.weight :=
  c4_unparsable_counted_in_totals_only [] badTsEntry 0 (by decide)

theorem stringMkData (s : String) : String.mk s.data = s := by
  cases s
  rfl

theorem digitChar_ne_comma (k : Nat) : digitChar k ≠ ',' := by
  unfold digitChar
  split <;> decide

theorem natDigitsAux_nocomma (fuel : Nat) :
    ∀ n acc, ',' ∉ acc → ',' ∉ natDigitsAux fuel n acc := by
  induction fuel with
  | zero =>
    intro n acc h
    simpa [natDigitsAux] using h
  | succ f ih =>
    intro n acc h
    have h2 : ',' ∉ digitChar (n % 10) :: acc := by
      intro hm
      rcases List.mem_cons.mp hm with h1 | h1
      · exact digitChar_ne_comma _ h1.symm
      · exact h h1
    unfold natDigitsAux
    by_cases hlt : n < 10
    · simpa [hlt] using h2
    · simpa [hlt] using ih (n / 10) _ h2

theorem natDigits_nocomma (n : Nat) : ',' ∉ natDigits n :=
  natDigitsAux_nocomma _ _ _ (by simp)

theorem fracDigitsAux_nocomma (fuel : Nat) :
    ∀ r den, ',' ∉ fracDigitsAux fuel r den := by
  induction fuel with
  | zero =>
    intro r den
    simp [fracDigitsAux]
  | succ f ih =>
    intro r den
    unfold fracDigitsAux
    by_cases h : r = 0
    · simp [h]
    · rw [if_neg h]
      intro hm
      rcases List.mem_cons.mp hm with h1 | h1
      · exact digitChar_ne_comma _ h1.symm
      · exact ih _ _ h1

theorem showFloat_nocomma (q : ℚ) : ',' ∉ showFloat q := by
  show ',' ∉ (if q < 0 then ['-'] else []) ++ natDigits (q.num.natAbs / q.den) ++
    (if fracDigitsAux 6 (q.num.natAbs % q.den) q.den = [] then []
     else '.' :: fracDigitsAux 6 (q.num.natAbs % q.den) q.den)
  intro hm
  rcases List.mem_append.mp hm with h1 | h1
  · rcases List.mem_append.mp h1 with h2 | h2
    · by_cases hq : q < 0
      · rw [if_pos hq] at h2
        exact absurd (List.mem_singleton.mp h2) (by decide)
      · rw [if_neg hq] at h2
        cases h2
    · exact natDigits_nocomma _ h2
  · by_cases hf : fracDigitsAux 6 (q.num.natAbs % q.den) q.den = []
    · rw [if_pos hf] at h1
      cases h1
    · rw [if_neg hf] at h1
      rcases List.mem_cons.mp h1 with h2 | h2
      · exact absurd h2 (by decide)
      · exact fracDigitsAux_nocomma _ _ _ h2

theorem splitCommaAux_no_comma (a : List Char) :
    ∀ acc, ',' ∉ a → splitCommaAux a acc = [acc.reverse ++ a] := by
  induction a with
  | nil =>
    intro acc _
    simp [splitCommaAux]
  | cons c t ih =>
    intro acc ha
    have hc : ¬(c = ',') := fun h => ha (by rw [h]; exact List.mem_cons_self _ _)
    have ht : ',' ∉ t := fun h => ha (List.mem_cons_of_mem _ h)
    rw [splitCommaAux, if_neg hc, ih (c :: acc) ht]
    simp

theorem splitCommaAux_split (a : List Char) :
    ∀ acc rest, ',' ∉ a →
      splitCommaAux (a ++ ',' :: rest) acc = (acc.reverse ++ a) :: splitCommaAux rest [] := by
  induction a with
  | nil =>
    intro acc rest _
    rw [List.nil_append, splitCommaAux, if_pos rfl]
    simp
  | cons c t ih =>
    intro acc rest ha
    have hc : ¬(c = ',') := fun h => ha (by rw [h]; exact List.mem_cons_self _ _)
    have ht : ',' ∉ t := fun h => ha (List.mem_cons_of_mem _ h)
    rw [List.cons_append, splitCommaAux, if_neg hc, ih (c :: acc) rest ht]
    simp

theorem splitCommaAux_entryToLine (e : WasteEntry)
    (h1 : ',' ∉ e.foodType.data) (h2 : ',' ∉ e.timestamp.data)
    (h3 : ',' ∉ e.mealPeriod.data) (h4 : ',' ∉ e.imageFilename.data) :
    splitCommaAux (entryToLine e) [] =
      [e.foodType.data, showFloat e.weight, e.timestamp.data, showFloat e.confidence,
       e.mealPeriod.data, e.imageFilename.data] := by
  unfold entryToLine
  rw [splitCommaAux_split _ _ _ h1,
      splitCommaAux_split _ _ _ (showFloat_nocomma e.weight),
      splitCommaAux_split _ _ _ h2,
      splitCommaAux_split _ _ _ (showFloat_nocomma e.confidence),
      splitCommaAux_split _ _ _ h3,
      splitCommaAux_no_comma _ _ h4]
  simp

theorem getlineTokens_entryToLine (e : WasteEntry)
    (h1 : ',' ∉ e.foodType.data) (h2 : ',' ∉ e.timestamp.data)
    (h3 : ',' ∉ e.mealPeriod.data) (h4 : ',' ∉ e.imageFilename.data) :
    getlineTokens (entryToLine e) =
      if e.imageFilename.data = [] then
        [e.foodType.data, showFloat e.weight, e.timestamp.data, showFloat e.confidence,
         e.mealPeriod.data]
      else
        [e.foodType.data, showFloat e.weight, e.timestamp.data, showFloat e.confidence,
         e.mealPeriod.data, e.imageFilename.data] := by
  unfold getlineTokens
  rw [splitCommaAux_entryToLine e h1 h2 h3 h4]
  by_cases himg : e.imageFilename.data = []
  · rw [if_pos himg, himg]
    simp
  · rw [if_neg himg]
    have hcond : ¬([e.foodType.data, showFloat e.weight, e.timestamp.data,
        showFloat e.confidence, e.mealPeriod.data, e.imageFilename.data].getLast? =
          some []) := by
      simp [himg]
    rw [if_neg hcond]

theorem parseEntryLine_entryToLine (e : WasteEntry)
    (h1 : ',' ∉ e.foodType.data) (h2 : ',' ∉ e.timestamp.data)
    (h3 : ',' ∉ e.mealPeriod.data) (h4 : ',' ∉ e.imageFilename.data)
    (hw : parseFloat (showFloat e.weight) = some e.weight)
    (hc : parseFloat (showFloat e.confidence) = some e.confidence) :
    parseEntryLine (entryToLine e) = some e := by
  unfold parseEntryLine
  rw [getlineTokens_entryToLine e h1 h2 h3 h4]
  by_cases himg : e.imageFilename.data = []
  · have himg2 : e.imageFilename = "" := by
      rw [← stringMkData e.imageFilename, himg]
    rw [if_pos himg]
    simp only [hw, hc]
    simp [stringMkData]
    rw [← himg2]
  · rw [if_neg himg]
    simp [hw, hc, stringMkData]

theorem parseEntryLines_map (entries : List WasteEntry)
    (h : ∀ e ∈ entries,
      (',' ∉ e.foodType.data ∧ ',' ∉ e.timestamp.data ∧
       ',' ∉ e.mealPeriod.data ∧ ',' ∉ e.imageFilename.data) ∧
      parseFloat (showFloat e.weight) = some e.weight ∧
      parseFloat (showFloat e.confidence) = some e.confidence) :
    parseEntryLines (entries.map entryToLine) = some entries := by
  induction entries with
  | nil => rfl
  | cons a t ih =>
    have ha := h a (List.mem_cons_self a t)
    have hline := parseEntryLine_entryToLine a ha.1.1 ha.1.2.1 ha.1.2.2.1 ha.1.2.2.2
      ha.2.1 ha.2.2
    have hrest := ih (fun e he => h e (List.mem_cons_of_mem a he))
    rw [List.map_cons, parseEntryLines, hline, hrest]

/-- C6 counterexample: a ledger whose food type contains the field delimiter
does not round-trip: the load splits the field at the embedded comma, feeds
text to `stof`, and fails — so load after persist is not the identity. -/
theorem c6_counterexample :
    loadFromFile (saveToFile [commaEntry]) = none ∧
    loadFromFile (saveToFile [commaEntry]) ≠ some [commaEntry] := by
  have h : loadFromFile (saveToFile [commaEntry]) = none := by decide
  refine ⟨h, ?_⟩
  rw [h]
  intro hc
  exact Option.noConfusion hc

/-- C6 (amended): persisting and re-loading restores the identical entry
sequence (header and fixed field order round-trip) for every ledger whose
string fields are free of the comma delimiter and whose numeric fields
re-parse exactly from their rendering; an embedded comma (or a value whose
rendering loses precision) breaks the round trip. -/
theorem c6_save_load_roundtrip (entries : List WasteEntry)
    (h : ∀ e ∈ entries,
      (',' ∉ e.foodType.data ∧ ',' ∉ e.timestamp.data ∧
       ',' ∉ e.mealPeriod.data ∧ ',' ∉ e.imageFilename.data) ∧
      parseFloat (showFloat e.weight) = some e.weight ∧
      parseFloat (showFloat e.confidence) = some e.confidence) :
    loadFromFile (saveToFile entries) = some entries :=
  parseEntryLines_map entries h

theorem nice_weight_roundtrip :
    parseFloat (showFloat ratTwentyFiveHalves) = some ratTwentyFiveHalves := by
  have hshow : showFloat ratTwentyFiveHalves = ['1', '2', '.', '5'] := by decide
  rw [hshow]
  have hparse : parseFloat ['1', '2', '.', '5'] =
      some (((12 : ℕ) : ℚ) + ((5 : ℕ) : ℚ) / (10 : ℚ) ^ (1 : ℕ)) := rfl
  rw [hparse]
  unfold ratTwentyFiveHalves
  rw [Rat.mk'_eq_divInt]
  push_cast
  norm_num [Rat.divInt_eq_div]

theorem nice_conf_roundtrip :
    parseFloat (showFloat ratHalf) = some ratHalf := by
  have hshow : showFloat ratHalf = ['0', '.', '5'] := by decide
  rw [hshow]
  have hparse : parseFloat ['0', '.', '5'] =
      some (((0 : ℕ) : ℚ) + ((5 : ℕ) : ℚ) / (10 : ℚ) ^ (1 : ℕ)) := rfl
  rw [hparse]
  unfold ratHalf
  rw [Rat.mk'_eq_divInt]
  push_cast
  norm_num [Rat.divInt_eq_div]

/-- C6 witness: the amended theorem at a one-entry delimiter-free ledger
with exactly-rendering numeric fields (weight 12.5, confidence 0.5). -/
theorem c6_roundtrip_witness :
    loadFromFile (saveToFile [niceEntry]) = some [niceEntry] :=
  c6_save_load_roundtrip [niceEntry] (by
    intro e he
    rw [List.mem_singleton.mp he]
    exact ⟨⟨by decide, by decide, by decide, by decide⟩,
      nice_weight_roundtrip, nice_conf_roundtrip⟩)

end PlateScope
